import Mathlib

/-!
Dilay: vertex partial actions and the sculpt tool's history commit.

A shallow embedding of

* `lib/src/partial-action/modify-winged-vertex.cpp` (`PAModifyWVertex::Impl`: the
  constructors `edge`, `reset`, `writeIndex`, `writeNormal`,
  `writeInterpolatedNormal`, `move`, `moved`, and the replay `toggle`, `runUndo`,
  `runRedo`), and
* `lib/src/tool/sculpt.cpp` (`ToolSculpt::Impl`: `runMouseReleaseEvent`,
  `addActionsToHistory`, `runClose`, `sculpt`).

C++ objects that are mutated in place are passed in and handed back explicitly.
A call that the C++ program would abort is a `Result.fatal` carrying the mesh as
the aborted call left it.
-/

namespace Dilay

/-- A `glm::vec3`. The three float components are kept as their bit patterns: the
code under study only copies vectors, it never computes on them. -/
structure Vec3 where
  x : Nat
  y : Nat
  z : Nat
deriving DecidableEq, Repr

/-- The ways a call can abort. -/
inductive Fatal where
  | indexOutOfRange
  | wrongValueType
deriving DecidableEq, Repr

/-- Equality of call results is decidable. -/
instance instDecidableEqExcept {ε α : Type} [DecidableEq ε] [DecidableEq α] :
    DecidableEq (Except ε α) := fun a b =>
  match a, b with
  | .ok x, .ok y => if h : x = y then isTrue (by rw [h]) else isFalse (fun hc => h (by cases hc; rfl))
  | .error x, .error y =>
    if h : x = y then isTrue (by rw [h]) else isFalse (fun hc => h (by cases hc; rfl))
  | .ok _, .error _ => isFalse (fun hc => by cases hc)
  | .error _, .ok _ => isFalse (fun hc => by cases hc)

/-- Modelled from the spec: `winged/edge.hpp` is absent. An edge object, as far as
a `WingedEdge*` lets the code see it: the identity of the object (`ident`, what
pointer equality compares) and its Mesh Entity Index (`index ()`). A `WingedEdge*`
is an `Option WingedEdge`, with `nullptr` as `none`. -/
structure WingedEdge where
  ident : Nat
  index : Nat
deriving DecidableEq, Repr

/-- Modelled from the spec: `winged/vertex.hpp` is absent. The vertex object behind
a `WingedVertex&`: it owns its index and its edge handle; position and normal live
in the mesh, addressed by the index. -/
structure WingedVertex where
  index : Nat
  edge : Option WingedEdge
deriving DecidableEq, Repr

/-- Modelled from the spec: the per-vertex attributes the mesh holds for one vertex
(edge handle, saved normal, position), part of the absent mesh. -/
structure VertexFields where
  edge : Option WingedEdge
  normal : Vec3
  position : Vec3
deriving DecidableEq, Repr

/-- Modelled from the spec: `winged/mesh.hpp` is absent. The Indexed Field Store:
attributes addressable by dense integer index. Slot `i` of `vertices` holds the
fields of the vertex with index `i`, slot `i` of `edges` the identity of the edge
with index `i`, and `indices` is the index buffer. -/
structure WingedMesh where
  vertices : List VertexFields
  edges : List Nat
  indices : List Nat
deriving DecidableEq, Repr

/-- The outcome of a call that mutates the mesh in place: it either returns a
value with the mesh as it left it, or aborts, again with the mesh as it left it. -/
inductive Result (α : Type) where
  | done (value : α) (mesh : WingedMesh)
  | fatal (error : Fatal) (mesh : WingedMesh)
deriving DecidableEq, Repr

namespace WingedMesh

/-- Modelled from the spec: `WingedMesh::vertexRef`, the reference-stable lookup of
a vertex by index; an index that is not a vertex of the mesh is the fatal
index-out-of-range error. -/
def vertexRef (mesh : WingedMesh) (index : Nat) : Except Fatal WingedVertex :=
  match mesh.vertices[index]? with
  | some fields => .ok { index := index, edge := fields.edge }
  | none => .error .indexOutOfRange

/-- Modelled from the spec: a `WingedVertex&` obtained through `vertexRef` refers to
the vertex object inside the mesh. `store` is the mesh after the callee has mutated
that object: the edge handle of the object is the edge handle the mesh holds at the
object's index. -/
def store (mesh : WingedMesh) (vertex : WingedVertex) : WingedMesh :=
  match mesh.vertices[vertex.index]? with
  | some fields =>
    { mesh with vertices := mesh.vertices.set vertex.index { fields with edge := vertex.edge } }
  | none => mesh

/-- Modelled from the spec: `WingedMesh::edge`, the edge with the given index, or
`nullptr` when the mesh has no edge with that index. -/
def edge (mesh : WingedMesh) (index : Nat) : Option WingedEdge :=
  match mesh.edges[index]? with
  | some ident => some { ident := ident, index := index }
  | none => none

/-- Modelled from the spec: `WingedMesh::index`, the content of an index slot. -/
def index (mesh : WingedMesh) (slot : Nat) : Except Fatal Nat :=
  match mesh.indices[slot]? with
  | some content => .ok content
  | none => .error .indexOutOfRange

/-- Modelled from the spec: `WingedMesh::setIndex`, the setter of an index slot. -/
def setIndex (mesh : WingedMesh) (slot : Nat) (vertexIndex : Nat) : Except Fatal WingedMesh :=
  if slot < mesh.indices.length then
    .ok { mesh with indices := mesh.indices.set slot vertexIndex }
  else .error .indexOutOfRange

end WingedMesh

namespace WingedVertex

/-- Modelled from the spec: `WingedVertex::savedNormal`. -/
def savedNormal (vertex : WingedVertex) (mesh : WingedMesh) : Except Fatal Vec3 :=
  match mesh.vertices[vertex.index]? with
  | some fields => .ok fields.normal
  | none => .error .indexOutOfRange

/-- Modelled from the spec: `WingedVertex::writeNormal`. -/
def writeNormal (vertex : WingedVertex) (mesh : WingedMesh) (normal : Vec3) :
    Except Fatal WingedMesh :=
  match mesh.vertices[vertex.index]? with
  | some fields =>
    .ok { mesh with vertices := mesh.vertices.set vertex.index { fields with normal := normal } }
  | none => .error .indexOutOfRange

/-- Modelled from the spec: `WingedVertex::position`. -/
def position (vertex : WingedVertex) (mesh : WingedMesh) : Except Fatal Vec3 :=
  match mesh.vertices[vertex.index]? with
  | some fields => .ok fields.position
  | none => .error .indexOutOfRange

/-- Modelled from the spec: `WingedVertex::writePosition`. -/
def writePosition (vertex : WingedVertex) (mesh : WingedMesh) (pos : Vec3) :
    Except Fatal WingedMesh :=
  match mesh.vertices[vertex.index]? with
  | some fields =>
    .ok { mesh with vertices := mesh.vertices.set vertex.index { fields with position := pos } }
  | none => .error .indexOutOfRange

end WingedVertex

namespace ActionUtil

/-- Modelled from the spec: `ActionUtil::maybeIndex` (`action/util.hpp` is absent),
the index of an edge handle, nothing for `nullptr`. -/
def maybeIndex (e : Option WingedEdge) : Option Nat :=
  match e with
  | some edge => some edge.index
  | none => none

/-- Modelled from the spec: `ActionUtil::wingedEdge`, which resolves an optional raw
index back to a live edge handle via the mesh. -/
def wingedEdge (mesh : WingedMesh) (m : Option Nat) : Option WingedEdge :=
  match m with
  | some index => mesh.edge index
  | none => none

end ActionUtil

/-- The `ActionDataType` selector of `ActionData::value`. -/
inductive ActionDataType where
  | Old
  | New
deriving DecidableEq, Repr

/-- The one of a pair of recorded values that the selector names. -/
def pick {α : Type} (type : ActionDataType) (old new : α) : α :=
  match type with
  | .Old => old
  | .New => new

/-- Modelled from the spec: the (old, new) pair of an `ActionData <Maybe <unsigned
int>, unsigned int, glm::vec3>` (`action/data.hpp` is absent): both values have the
same one of the three value types. -/
inductive Values where
  | maybeIndex (old new : Option Nat)
  | index (old new : Nat)
  | vec3 (old new : Vec3)
deriving DecidableEq, Repr

/-- Modelled from the spec: the Field-Change Record `ActionData` (`action/data.hpp`
is absent): an entity index and a pair of typed values. -/
structure Data where
  index : Nat
  values : Values
deriving DecidableEq, Repr

namespace Data

/-- The call `data.index (vertex)`. -/
def setIndexOf (data : Data) (vertex : WingedVertex) : Data :=
  { data with index := vertex.index }

/-- The call `data.index (rawIndex)`. -/
def setIndex (data : Data) (rawIndex : Nat) : Data :=
  { data with index := rawIndex }

/-- The call `data.values (old, new)`. -/
def setValues (data : Data) (values : Values) : Data :=
  { data with values := values }

/-- The call `data.value <Maybe <unsigned int>> (type)`. -/
def valueMaybeIndex (data : Data) (type : ActionDataType) : Except Fatal (Option Nat) :=
  match data.values, type with
  | .maybeIndex old _, .Old => .ok old
  | .maybeIndex _ new, .New => .ok new
  | _, _ => .error .wrongValueType

/-- The call `data.value <unsigned int> (type)`. -/
def valueIndex (data : Data) (type : ActionDataType) : Except Fatal Nat :=
  match data.values, type with
  | .index old _, .Old => .ok old
  | .index _ new, .New => .ok new
  | _, _ => .error .wrongValueType

/-- The call `data.value <glm::vec3> (type)`. -/
def valueVec3 (data : Data) (type : ActionDataType) : Except Fatal Vec3 :=
  match data.values, type with
  | .vec3 old _, .Old => .ok old
  | .vec3 _ new, .New => .ok new
  | _, _ => .error .wrongValueType

end Data

/-- The `Operation` tag of modify-winged-vertex.cpp. -/
inductive Operation where
  | Edge
  | WriteIndex
  | WriteNormal
  | Move
deriving DecidableEq, Repr

namespace PAModifyWVertex

/-- The `PAModifyWVertex::Impl` struct. -/
structure Impl where
  operation : Operation
  data : Data
deriving DecidableEq, Repr

namespace Impl

/-- `Impl::edge (WingedVertex& vertex, WingedEdge* e)`: returns the action and the
mutated vertex object. -/
def edge (self : Impl) (vertex : WingedVertex) (e : Option WingedEdge) : Impl × WingedVertex :=
  let self := { self with operation := Operation.Edge }
  let self := { self with data := self.data.setIndexOf vertex }
  let values := Values.maybeIndex (ActionUtil.maybeIndex vertex.edge) (ActionUtil.maybeIndex e)
  let self := { self with data := self.data.setValues values }
  (self, { vertex with edge := e })

/-- `Impl::reset (WingedVertex& vertex)`. -/
def reset (self : Impl) (vertex : WingedVertex) : Impl × WingedVertex :=
  self.edge vertex none

/-- `Impl::writeIndex (WingedMesh& mesh, WingedVertex& vertex, unsigned int index)`. -/
def writeIndex (self : Impl) (mesh : WingedMesh) (vertex : WingedVertex) (index : Nat) :
    Result Impl :=
  let self := { self with operation := Operation.WriteIndex }
  let self := { self with data := self.data.setIndex index }
  match mesh.index index with
  | .error err => .fatal err mesh
  | .ok old =>
    let self := { self with data := self.data.setValues (.index old vertex.index) }
    match mesh.setIndex index vertex.index with
    | .error err => .fatal err mesh
    | .ok mesh1 => .done self mesh1

/-- `Impl::writeNormal (WingedMesh& mesh, WingedVertex& vertex, const glm::vec3& normal)`. -/
def writeNormal (self : Impl) (mesh : WingedMesh) (vertex : WingedVertex) (normal : Vec3) :
    Result Impl :=
  let self := { self with operation := Operation.WriteNormal }
  let self := { self with data := self.data.setIndexOf vertex }
  match vertex.savedNormal mesh with
  | .error err => .fatal err mesh
  | .ok old =>
    let self := { self with data := self.data.setValues (.vec3 old normal) }
    match vertex.writeNormal mesh normal with
    | .error err => .fatal err mesh
    | .ok mesh1 => .done self mesh1

/-- `Impl::writeInterpolatedNormal (WingedMesh& mesh, WingedVertex& vertex)`. The
geometric computation `WingedVertex::interpolatedNormal` (a const function of the
mesh and the vertex) is the parameter `interpolatedNormal`. -/
def writeInterpolatedNormal (interpolatedNormal : WingedVertex → WingedMesh → Vec3)
    (self : Impl) (mesh : WingedMesh) (vertex : WingedVertex) : Result Impl :=
  self.writeNormal mesh vertex (interpolatedNormal vertex mesh)

/-- `Impl::move (WingedMesh& mesh, WingedVertex& vertex, const glm::vec3& pos)`. -/
def move (self : Impl) (mesh : WingedMesh) (vertex : WingedVertex) (pos : Vec3) :
    Result Impl :=
  let self := { self with operation := Operation.Move }
  let self := { self with data := self.data.setIndexOf vertex }
  match vertex.position mesh with
  | .error err => .fatal err mesh
  | .ok old =>
    let self := { self with data := self.data.setValues (.vec3 old pos) }
    match vertex.writePosition mesh pos with
    | .error err => .fatal err mesh
    | .ok mesh1 => .done self mesh1

/-- `Impl::moved (WingedMesh& mesh, WingedVertex& vertex, const glm::vec3& from)`. -/
def moved (self : Impl) (mesh : WingedMesh) (vertex : WingedVertex) (src : Vec3) :
    Result Impl :=
  let self := { self with operation := Operation.Move }
  let self := { self with data := self.data.setIndexOf vertex }
  match vertex.position mesh with
  | .error err => .fatal err mesh
  | .ok current =>
    .done { self with data := self.data.setValues (.vec3 src current) } mesh

/-- `Impl::toggle (WingedMesh& mesh, ActionDataType type) const`. -/
def toggle (self : Impl) (mesh : WingedMesh) (type : ActionDataType) : Result Unit :=
  match self.operation with
  | .Edge =>
    match self.data.valueMaybeIndex type with
    | .error err => .fatal err mesh
    | .ok m =>
      match mesh.vertexRef self.data.index with
      | .error err => .fatal err mesh
      | .ok vertex => .done () (mesh.store { vertex with edge := ActionUtil.wingedEdge mesh m })
  | .WriteIndex =>
    match self.data.valueIndex type with
    | .error err => .fatal err mesh
    | .ok value =>
      match mesh.setIndex self.data.index value with
      | .error err => .fatal err mesh
      | .ok mesh1 => .done () mesh1
  | .WriteNormal =>
    match mesh.vertexRef self.data.index with
    | .error err => .fatal err mesh
    | .ok vertex =>
      match self.data.valueVec3 type with
      | .error err => .fatal err mesh
      | .ok value =>
        match vertex.writeNormal mesh value with
        | .error err => .fatal err mesh
        | .ok mesh1 => .done () mesh1
  | .Move =>
    match mesh.vertexRef self.data.index with
    | .error err => .fatal err mesh
    | .ok vertex =>
      match self.data.valueVec3 type with
      | .error err => .fatal err mesh
      | .ok value =>
        match vertex.writePosition mesh value with
        | .error err => .fatal err mesh
        | .ok mesh1 => .done () mesh1

/-- `Impl::runUndo (WingedMesh& mesh) const`. -/
def runUndo (self : Impl) (mesh : WingedMesh) : Result Unit :=
  self.toggle mesh .Old

/-- `Impl::runRedo (WingedMesh& mesh) const`. -/
def runRedo (self : Impl) (mesh : WingedMesh) : Result Unit :=
  self.toggle mesh .New

/-- The record is typed according to the operation tag, as every action that one
of the constructors has filled in is. -/
def WellTyped (self : Impl) : Prop :=
  match self.operation, self.data.values with
  | .Edge, .maybeIndex _ _ => True
  | .WriteIndex, .index _ _ => True
  | .WriteNormal, .vec3 _ _ => True
  | .Move, .vec3 _ _ => True
  | _, _ => False

instance (self : Impl) : Decidable self.WellTyped := by
  unfold WellTyped
  split <;> infer_instance

/-- The number of entities of the kind the operation addresses by the recorded
index: index slots for `WriteIndex`, vertices for the other operations. -/
def entityCount (self : Impl) (mesh : WingedMesh) : Nat :=
  match self.operation with
  | .WriteIndex => mesh.indices.length
  | _ => mesh.vertices.length

end Impl

end PAModifyWVertex

/-- An edge handle that the mesh resolves back to itself from its index: `nullptr`,
or an edge of this mesh. -/
def WingedMesh.Owns (mesh : WingedMesh) (e : Option WingedEdge) : Prop :=
  ActionUtil.wingedEdge mesh (ActionUtil.maybeIndex e) = e

instance (mesh : WingedMesh) (e : Option WingedEdge) : Decidable (mesh.Owns e) := by
  unfold WingedMesh.Owns
  infer_instance

/-- The `Qt::MouseButton` values a release event can carry. -/
inductive MouseButton where
  | NoButton
  | LeftButton
  | RightButton
  | MiddleButton
deriving DecidableEq, Repr

/-- A `QMouseEvent`, as far as the tool reads it: `e.button ()`. -/
structure QMouseEvent where
  button : MouseButton
deriving DecidableEq, Repr

/-- The `ToolResponse` enumeration. -/
inductive ToolResponse where
  | None
  | Redraw
  | Terminate
deriving DecidableEq, Repr

/-- Modelled from the spec: `sculpt-brush.hpp` is absent. The brush as a position
producer: `position` is `none` when the brush has no position. -/
structure SculptBrush where
  position : Option Vec3
deriving DecidableEq, Repr

/-- Modelled from the spec: `SculptBrush::resetPosition`. -/
def SculptBrush.resetPosition (_brush : SculptBrush) : SculptBrush :=
  { position := none }

/-- Modelled from the spec: `view/cursor.hpp` is absent; only the enabled flag. -/
structure ViewCursor where
  enabled : Bool
deriving DecidableEq, Repr

/-- Modelled from the spec: `ViewCursor::enable`. -/
def ViewCursor.enable (_cursor : ViewCursor) : ViewCursor :=
  { enabled := true }

/-- Modelled from the spec: `action/sculpt.hpp` is absent. One sculpt
mesh-deformation action, identified by the brush it was run with. -/
structure ActionSculpt where
  brush : SculptBrush
deriving DecidableEq, Repr

/-- Modelled from the spec: `action/unit.hpp` is absent. The Action Unit: an ordered,
append-only sequence of actions. -/
structure ActionUnit where
  actions : List ActionSculpt
deriving DecidableEq, Repr

namespace ActionUnit

/-- Modelled from the spec: a freshly constructed `ActionUnit`. -/
def fresh : ActionUnit :=
  { actions := [] }

/-- Modelled from the spec: `ActionUnit::isEmpty`, whether no action has been added. -/
def isEmpty (unit : ActionUnit) : Bool :=
  unit.actions.isEmpty

/-- Modelled from the spec: `ActionUnit::add`, which appends the new action. -/
def add (unit : ActionUnit) (action : ActionSculpt) : ActionUnit :=
  { actions := unit.actions ++ [action] }

end ActionUnit

/-- Modelled from the spec: `history.hpp` is absent. The History Stack: the
undo-stack and the redo-stack of Action Units, top first. -/
structure History where
  undoStack : List ActionUnit
  redoStack : List ActionUnit
deriving DecidableEq, Repr

/-- Modelled from the spec: `History::addUnit`, push onto the undo-stack and clear
the redo-stack entirely. -/
def History.addUnit (history : History) (unit : ActionUnit) : History :=
  { undoStack := unit :: history.undoStack, redoStack := [] }

namespace ToolSculpt

/-- The part of `ToolSculpt::Impl` that the commit path reads and writes, with the
history of the state (`self->state ().history ()`). -/
structure Impl where
  brush : SculptBrush
  cursor : ViewCursor
  actions : ActionUnit
  history : History
deriving DecidableEq, Repr

namespace Impl

/-- `ToolSculpt::Impl::addActionsToHistory`. -/
def addActionsToHistory (self : Impl) : Impl :=
  if self.actions.isEmpty = false then
    let self := { self with history := self.history.addUnit self.actions }
    { self with actions := ActionUnit.fresh }
  else self

/-- `ToolSculpt::Impl::runMouseReleaseEvent`. -/
def runMouseReleaseEvent (self : Impl) (e : QMouseEvent) : ToolResponse × Impl :=
  let self :=
    if e.button = MouseButton.LeftButton then
      let self := { self with brush := self.brush.resetPosition }
      self.addActionsToHistory
    else self
  let self := { self with cursor := self.cursor.enable }
  (ToolResponse.None, self)

/-- `ToolSculpt::Impl::runClose`. -/
def runClose (self : Impl) : Impl :=
  self.addActionsToHistory

/-- `ToolSculpt::Impl::sculpt`: a new sculpt action is added to the current unit and
run with the brush. -/
def sculpt (self : Impl) : Impl :=
  { self with actions := self.actions.add { brush := self.brush } }

/-- A stroke: the stroke handlers give the brush its next state and call `sculpt`,
once per brush state of the list. -/
def strokes (self : Impl) (brushes : List SculptBrush) : Impl :=
  brushes.foldl (fun tool brush => sculpt { tool with brush := brush }) self

end Impl

end ToolSculpt

/-! ## Concrete inputs -/

/-- A mesh with three vertices, two edges and three index slots; vertex 0 refers to
the edge with index 1, the other vertices to no edge. -/
def sampleMesh : WingedMesh :=
  { vertices := [ { edge := some ⟨71, 1⟩, normal := ⟨0, 0, 1⟩, position := ⟨0, 0, 0⟩ },
                  { edge := none, normal := ⟨0, 1, 0⟩, position := ⟨1, 0, 0⟩ },
                  { edge := none, normal := ⟨1, 0, 0⟩, position := ⟨0, 1, 0⟩ } ],
    edges := [70, 71],
    indices := [1, 0, 2] }

/-- The vertex object of vertex 0 of `sampleMesh`. -/
def sampleVertex0 : WingedVertex :=
  { index := 0, edge := some ⟨71, 1⟩ }

/-- The vertex object of vertex 2 of `sampleMesh`. -/
def sampleVertex2 : WingedVertex :=
  { index := 2, edge := none }

/-- A sculpt tool in mid-stroke: one sculpt action in the current unit, nothing in
the history yet. -/
def sampleTool : ToolSculpt.Impl :=
  { brush := { position := some ⟨1, 2, 3⟩ },
    cursor := { enabled := false },
    actions := { actions := [ { brush := { position := some ⟨1, 2, 3⟩ } } ] },
    history := { undoStack := [], redoStack := [] } }

/-- A sculpt tool after a click without a drag: the current unit is empty. -/
def idleTool : ToolSculpt.Impl :=
  { brush := { position := some ⟨1, 2, 3⟩ },
    cursor := { enabled := false },
    actions := ActionUnit.fresh,
    history := { undoStack := [ { actions := [ { brush := { position := none } } ] } ],
                 redoStack := [] } }

/-- A mesh of four vertices with no edge and no index slot; vertex 3 is at
(0,0,0). -/
def bareMesh : WingedMesh :=
  { vertices := [ { edge := none, normal := ⟨0, 0, 1⟩, position := ⟨2, 0, 0⟩ },
                  { edge := none, normal := ⟨0, 0, 1⟩, position := ⟨0, 2, 0⟩ },
                  { edge := none, normal := ⟨0, 0, 1⟩, position := ⟨0, 0, 2⟩ },
                  { edge := none, normal := ⟨0, 0, 1⟩, position := ⟨0, 0, 0⟩ } ],
    edges := [],
    indices := [] }

/-- The vertex object of vertex 3 of `bareMesh`. -/
def bareVertex3 : WingedVertex :=
  { index := 3, edge := none }

/-- An action object before a constructor fills it in. -/
def sampleAction : PAModifyWVertex.Impl :=
  { operation := .Move, data := { index := 0, values := .index 0 0 } }

end Dilay

namespace Dilay

open PAModifyWVertex

/-! ## Lemmas on the indexed store -/

theorem set_same_of_getElem? {α : Type} (l : List α) (i : Nat) (a : α)
    (h : l[i]? = some a) : l.set i a = l := by
  apply List.ext_getElem?
  intro n
  rw [List.getElem?_set]
  by_cases hn : i = n
  · subst hn
    have hlt : i < l.length := (List.getElem?_eq_some.mp h).1
    simp [hlt, h]
  · simp [hn]

theorem getElem?_set_same {α : Type} (l : List α) (i : Nat) (a b : α)
    (h : l[i]? = some a) : (l.set i b)[i]? = some b := by
  have hlt : i < l.length := (List.getElem?_eq_some.mp h).1
  simp [List.getElem?_set, hlt]

theorem vertexRef_eq_ok {mesh : WingedMesh} {i : Nat} {vertex : WingedVertex}
    (h : mesh.vertexRef i = .ok vertex) :
    ∃ fields, mesh.vertices[i]? = some fields ∧ vertex = { index := i, edge := fields.edge } := by
  unfold WingedMesh.vertexRef at h
  split at h
  · rename_i fields hf
    refine ⟨fields, hf, ?_⟩
    injection h with h
    exact h.symm
  · cases h

theorem wingedEdge_of_edges_eq (mesh1 mesh2 : WingedMesh) (h : mesh1.edges = mesh2.edges)
    (m : Option Nat) : ActionUtil.wingedEdge mesh1 m = ActionUtil.wingedEdge mesh2 m := by
  cases m <;> simp [ActionUtil.wingedEdge, WingedMesh.edge, h]

/-- Undoing an `edge` action on the mesh it was created on gives back the mesh as
it was, when the old handle is one the mesh resolves. -/
theorem edge_undo (self : Impl) (mesh : WingedMesh) (i : Nat) (vertex : WingedVertex)
    (e : Option WingedEdge) (hv : mesh.vertexRef i = .ok vertex) (hown : mesh.Owns vertex.edge) :
    (self.edge vertex e).1.runUndo (mesh.store (self.edge vertex e).2) = .done () mesh := by
  obtain ⟨fields, hf, rfl⟩ := vertexRef_eq_ok hv
  have hown2 : ActionUtil.wingedEdge mesh (ActionUtil.maybeIndex fields.edge) = fields.edge := hown
  have hres : ∀ vs, ActionUtil.wingedEdge { mesh with vertices := vs }
      (ActionUtil.maybeIndex fields.edge) = fields.edge := by
    intro vs
    exact (wingedEdge_of_edges_eq _ mesh rfl _).trans hown2
  simp only [Impl.edge, Impl.runUndo, Impl.toggle, Data.setIndexOf, Data.setValues,
    Data.valueMaybeIndex, WingedMesh.store, WingedMesh.vertexRef, hf]
  simp only [getElem?_set_same _ _ _ _ hf, hres, List.set_set]
  simp [set_same_of_getElem? _ _ _ hf]

/-! ## The constructors and the replay in closed form -/

theorem writeIndex_eq (self : Impl) (mesh : WingedMesh) (vertex : WingedVertex) (slot old : Nat)
    (h : mesh.indices[slot]? = some old) :
    self.writeIndex mesh vertex slot =
      .done { operation := .WriteIndex, data := { index := slot, values := .index old vertex.index } }
        { mesh with indices := mesh.indices.set slot vertex.index } := by
  have hlt : slot < mesh.indices.length := (List.getElem?_eq_some.mp h).1
  simp [Impl.writeIndex, WingedMesh.index, WingedMesh.setIndex, h, hlt, Data.setIndex,
    Data.setValues]

theorem writeNormal_eq (self : Impl) (mesh : WingedMesh) (vertex : WingedVertex) (normal : Vec3)
    (fields : VertexFields) (h : mesh.vertices[vertex.index]? = some fields) :
    self.writeNormal mesh vertex normal =
      .done { operation := .WriteNormal,
              data := { index := vertex.index, values := .vec3 fields.normal normal } }
        { mesh with vertices := mesh.vertices.set vertex.index { fields with normal := normal } } := by
  simp [Impl.writeNormal, WingedVertex.savedNormal, WingedVertex.writeNormal, h, Data.setIndexOf,
    Data.setValues]

theorem move_eq (self : Impl) (mesh : WingedMesh) (vertex : WingedVertex) (pos : Vec3)
    (fields : VertexFields) (h : mesh.vertices[vertex.index]? = some fields) :
    self.move mesh vertex pos =
      .done { operation := .Move,
              data := { index := vertex.index, values := .vec3 fields.position pos } }
        { mesh with vertices := mesh.vertices.set vertex.index { fields with position := pos } } := by
  simp [Impl.move, WingedVertex.position, WingedVertex.writePosition, h, Data.setIndexOf,
    Data.setValues]

theorem moved_eq (self : Impl) (mesh : WingedMesh) (vertex : WingedVertex) (src : Vec3)
    (fields : VertexFields) (h : mesh.vertices[vertex.index]? = some fields) :
    self.moved mesh vertex src =
      .done { operation := .Move,
              data := { index := vertex.index, values := .vec3 src fields.position } } mesh := by
  simp [Impl.moved, WingedVertex.position, h, Data.setIndexOf, Data.setValues]

theorem toggle_edge_eq (mesh : WingedMesh) (i : Nat) (old new : Option Nat)
    (type : ActionDataType) (fields : VertexFields) (h : mesh.vertices[i]? = some fields) :
    Impl.toggle { operation := .Edge, data := { index := i, values := .maybeIndex old new } }
        mesh type =
      .done () { mesh with vertices := (mesh.vertices.set i
        { fields with edge := ActionUtil.wingedEdge mesh (pick type old new) }) } := by
  cases type <;>
    simp [Impl.toggle, Data.valueMaybeIndex, WingedMesh.vertexRef, WingedMesh.store, h, pick]

theorem toggle_writeIndex_eq (mesh : WingedMesh) (slot old new : Nat) (type : ActionDataType)
    (h : slot < mesh.indices.length) :
    Impl.toggle { operation := .WriteIndex, data := { index := slot, values := .index old new } }
        mesh type =
      .done () { mesh with indices := mesh.indices.set slot (pick type old new) } := by
  cases type <;> simp [Impl.toggle, Data.valueIndex, WingedMesh.setIndex, h, pick]

theorem toggle_writeNormal_eq (mesh : WingedMesh) (i : Nat) (old new : Vec3)
    (type : ActionDataType) (fields : VertexFields) (h : mesh.vertices[i]? = some fields) :
    Impl.toggle { operation := .WriteNormal, data := { index := i, values := .vec3 old new } }
        mesh type =
      .done () { mesh with vertices := (mesh.vertices.set i
        { fields with normal := pick type old new }) } := by
  cases type <;>
    simp [Impl.toggle, Data.valueVec3, WingedMesh.vertexRef, WingedVertex.writeNormal, h, pick]

theorem toggle_move_eq (mesh : WingedMesh) (i : Nat) (old new : Vec3)
    (type : ActionDataType) (fields : VertexFields) (h : mesh.vertices[i]? = some fields) :
    Impl.toggle { operation := .Move, data := { index := i, values := .vec3 old new } }
        mesh type =
      .done () { mesh with vertices := (mesh.vertices.set i
        { fields with position := pick type old new }) } := by
  cases type <;>
    simp [Impl.toggle, Data.valueVec3, WingedMesh.vertexRef, WingedVertex.writePosition, h, pick]

theorem edge_eq (self : Impl) (vertex : WingedVertex) (e : Option WingedEdge) :
    self.edge vertex e =
      ({ operation := .Edge,
         data := { index := vertex.index,
                   values := .maybeIndex (ActionUtil.maybeIndex vertex.edge)
                     (ActionUtil.maybeIndex e) } },
       { index := vertex.index, edge := e }) := by
  simp [Impl.edge, Data.setIndexOf, Data.setValues]

theorem store_eq (mesh : WingedMesh) (vertex : WingedVertex) (fields : VertexFields)
    (h : mesh.vertices[vertex.index]? = some fields) :
    mesh.store vertex =
      { mesh with vertices := mesh.vertices.set vertex.index { fields with edge := vertex.edge } } := by
  simp [WingedMesh.store, h]

theorem writeIndex_undo (self : Impl) (mesh : WingedMesh) (vertex : WingedVertex) (slot : Nat)
    (hslot : slot < mesh.indices.length) :
    ∃ a mesh1, self.writeIndex mesh vertex slot = .done a mesh1 ∧
      a.runUndo mesh1 = .done () mesh := by
  have hold : mesh.indices[slot]? = some mesh.indices[slot] := List.getElem?_eq_getElem hslot
  refine ⟨_, _, writeIndex_eq self mesh vertex slot _ hold, ?_⟩
  rw [Impl.runUndo, toggle_writeIndex_eq _ _ _ _ _ (by simpa using hslot)]
  simp [pick, set_same_of_getElem? _ _ _ hold]

theorem writeNormal_undo (self : Impl) (mesh : WingedMesh) (vertex : WingedVertex)
    (normal : Vec3) (hvi : vertex.index < mesh.vertices.length) :
    ∃ a mesh1, self.writeNormal mesh vertex normal = .done a mesh1 ∧
      a.runUndo mesh1 = .done () mesh := by
  have hf : mesh.vertices[vertex.index]? = some mesh.vertices[vertex.index] :=
    List.getElem?_eq_getElem hvi
  refine ⟨_, _, writeNormal_eq self mesh vertex normal _ hf, ?_⟩
  rw [Impl.runUndo, toggle_writeNormal_eq _ _ _ _ _ _ (getElem?_set_same _ _ _ _ hf)]
  simp [pick, set_same_of_getElem? _ _ _ hf]

theorem move_undo (self : Impl) (mesh : WingedMesh) (vertex : WingedVertex)
    (pos : Vec3) (hvi : vertex.index < mesh.vertices.length) :
    ∃ a mesh1, self.move mesh vertex pos = .done a mesh1 ∧
      a.runUndo mesh1 = .done () mesh := by
  have hf : mesh.vertices[vertex.index]? = some mesh.vertices[vertex.index] :=
    List.getElem?_eq_getElem hvi
  refine ⟨_, _, move_eq self mesh vertex pos _ hf, ?_⟩
  rw [Impl.runUndo, toggle_move_eq _ _ _ _ _ _ (getElem?_set_same _ _ _ _ hf)]
  simp [pick, set_same_of_getElem? _ _ _ hf]

theorem edge_undo_redo (self : Impl) (mesh : WingedMesh) (i : Nat) (vertex : WingedVertex)
    (e : Option WingedEdge) (hv : mesh.vertexRef i = .ok vertex) (hown : mesh.Owns e) :
    ∃ mesh2, (self.edge vertex e).1.runUndo (mesh.store (self.edge vertex e).2) = .done () mesh2 ∧
      (self.edge vertex e).1.runRedo mesh2 = .done () (mesh.store (self.edge vertex e).2) := by
  obtain ⟨fields, hf, rfl⟩ := vertexRef_eq_ok hv
  have hown2 : ActionUtil.wingedEdge mesh (ActionUtil.maybeIndex e) = e := hown
  have hres : ∀ vs, ActionUtil.wingedEdge { mesh with vertices := vs }
      (ActionUtil.maybeIndex e) = e := by
    intro vs
    exact (wingedEdge_of_edges_eq _ mesh rfl _).trans hown2
  rw [edge_eq, store_eq _ _ fields hf]
  refine ⟨_, toggle_edge_eq _ _ _ _ .Old _ (getElem?_set_same _ _ _ _ hf), ?_⟩
  · rw [Impl.runRedo, toggle_edge_eq _ _ _ _ _ _
      (getElem?_set_same _ _ _ _ (getElem?_set_same _ _ _ _ hf))]
    simp [pick, hres]

theorem writeIndex_undo_redo (self : Impl) (mesh : WingedMesh) (vertex : WingedVertex)
    (slot : Nat) (hslot : slot < mesh.indices.length) :
    ∃ a mesh1, self.writeIndex mesh vertex slot = .done a mesh1 ∧
      ∃ mesh2, a.runUndo mesh1 = .done () mesh2 ∧ a.runRedo mesh2 = .done () mesh1 := by
  have hold : mesh.indices[slot]? = some mesh.indices[slot] := List.getElem?_eq_getElem hslot
  refine ⟨_, _, writeIndex_eq self mesh vertex slot _ hold, _,
    toggle_writeIndex_eq _ _ _ _ .Old (by simpa using hslot), ?_⟩
  · rw [Impl.runRedo, toggle_writeIndex_eq _ _ _ _ _ (by simpa using hslot)]
    simp [pick]

theorem writeNormal_undo_redo (self : Impl) (mesh : WingedMesh) (vertex : WingedVertex)
    (normal : Vec3) (hvi : vertex.index < mesh.vertices.length) :
    ∃ a mesh1, self.writeNormal mesh vertex normal = .done a mesh1 ∧
      ∃ mesh2, a.runUndo mesh1 = .done () mesh2 ∧ a.runRedo mesh2 = .done () mesh1 := by
  have hf : mesh.vertices[vertex.index]? = some mesh.vertices[vertex.index] :=
    List.getElem?_eq_getElem hvi
  refine ⟨_, _, writeNormal_eq self mesh vertex normal _ hf, _,
    toggle_writeNormal_eq _ _ _ _ .Old _ (getElem?_set_same _ _ _ _ hf), ?_⟩
  · rw [Impl.runRedo, toggle_writeNormal_eq _ _ _ _ _ _
      (getElem?_set_same _ _ _ _ (getElem?_set_same _ _ _ _ hf))]
    simp [pick]

theorem move_undo_redo (self : Impl) (mesh : WingedMesh) (vertex : WingedVertex)
    (pos : Vec3) (hvi : vertex.index < mesh.vertices.length) :
    ∃ a mesh1, self.move mesh vertex pos = .done a mesh1 ∧
      ∃ mesh2, a.runUndo mesh1 = .done () mesh2 ∧ a.runRedo mesh2 = .done () mesh1 := by
  have hf : mesh.vertices[vertex.index]? = some mesh.vertices[vertex.index] :=
    List.getElem?_eq_getElem hvi
  refine ⟨_, _, move_eq self mesh vertex pos _ hf, _,
    toggle_move_eq _ _ _ _ .Old _ (getElem?_set_same _ _ _ _ hf), ?_⟩
  · rw [Impl.runRedo, toggle_move_eq _ _ _ _ _ _
      (getElem?_set_same _ _ _ _ (getElem?_set_same _ _ _ _ hf))]
    simp [pick]

theorem moved_undo_redo (self : Impl) (mesh : WingedMesh) (vertex : WingedVertex)
    (src : Vec3) (hvi : vertex.index < mesh.vertices.length) :
    ∃ a, self.moved mesh vertex src = .done a mesh ∧
      ∃ mesh2, a.runUndo mesh = .done () mesh2 ∧ a.runRedo mesh2 = .done () mesh := by
  have hf : mesh.vertices[vertex.index]? = some mesh.vertices[vertex.index] :=
    List.getElem?_eq_getElem hvi
  refine ⟨_, moved_eq self mesh vertex src _ hf, _, toggle_move_eq _ _ _ _ .Old _ hf, ?_⟩
  · rw [Impl.runRedo, toggle_move_eq _ _ _ _ _ _ (getElem?_set_same _ _ _ _ hf)]
    simp [pick, set_same_of_getElem? _ _ _ hf]

/-- Every action a constructor has filled in has its record typed according to its
tag. -/
theorem constructed_wellTyped (self : Impl) (mesh : WingedMesh) (vertex : WingedVertex)
    (e : Option WingedEdge) (slot : Nat) (value : Vec3) :
    (self.edge vertex e).1.WellTyped ∧ (self.reset vertex).1.WellTyped ∧
    (∀ a mesh1, self.writeIndex mesh vertex slot = .done a mesh1 → a.WellTyped) ∧
    (∀ a mesh1, self.writeNormal mesh vertex value = .done a mesh1 → a.WellTyped) ∧
    (∀ a mesh1, self.move mesh vertex value = .done a mesh1 → a.WellTyped) ∧
    (∀ a mesh1, self.moved mesh vertex value = .done a mesh1 → a.WellTyped) := by
  refine ⟨?_, ?_, ?_, ?_, ?_, ?_⟩
  · simp [edge_eq, Impl.WellTyped]
  · simp [Impl.reset, edge_eq, Impl.WellTyped]
  · intro a mesh1 h
    unfold Impl.writeIndex at h
    simp only at h
    split at h
    · cases h
    · split at h
      · cases h
      · injection h with h1 _
        subst h1
        simp [Impl.WellTyped, Data.setValues]
  · intro a mesh1 h
    unfold Impl.writeNormal at h
    simp only at h
    split at h
    · cases h
    · split at h
      · cases h
      · injection h with h1 _
        subst h1
        simp [Impl.WellTyped, Data.setValues]
  · intro a mesh1 h
    unfold Impl.move at h
    simp only at h
    split at h
    · cases h
    · split at h
      · cases h
      · injection h with h1 _
        subst h1
        simp [Impl.WellTyped, Data.setValues]
  · intro a mesh1 h
    unfold Impl.moved at h
    simp only at h
    split at h
    · cases h
    · injection h with h1 _
      subst h1
      simp [Impl.WellTyped, Data.setValues]

/-! ## The claims -/

/-- C1: a vertex partial action created on a mesh by `edge`, `reset`, `writeIndex`,
`writeNormal`, `writeInterpolatedNormal` or `move` is undone by `runUndo` on the
resulting mesh: it succeeds and gives back the mesh as it was immediately before the
action was created, so the affected field (edge handle, index slot, saved normal,
position at the recorded index) has its old value again. Each constructor is taken
under what its own call needs: for `edge` and `reset` the vertex is the vertex the
mesh holds at its index and its edge handle is none or an edge of the mesh; for
`writeIndex` the slot is an index slot of the mesh; for `writeNormal`,
`writeInterpolatedNormal` and `move` the vertex's index is a vertex of the mesh. -/
theorem undo_restores_field (self : Impl) (mesh : WingedMesh) (vertex : WingedVertex)
    (e : Option WingedEdge) (slot : Nat) (normal pos : Vec3)
    (interpolatedNormal : WingedVertex → WingedMesh → Vec3) :
    (mesh.vertexRef vertex.index = .ok vertex → mesh.Owns vertex.edge →
      (self.edge vertex e).1.runUndo (mesh.store (self.edge vertex e).2) = .done () mesh) ∧
    (mesh.vertexRef vertex.index = .ok vertex → mesh.Owns vertex.edge →
      (self.reset vertex).1.runUndo (mesh.store (self.reset vertex).2) = .done () mesh) ∧
    (slot < mesh.indices.length →
      ∃ a mesh1, self.writeIndex mesh vertex slot = .done a mesh1 ∧
        a.runUndo mesh1 = .done () mesh) ∧
    (vertex.index < mesh.vertices.length →
      ∃ a mesh1, self.writeNormal mesh vertex normal = .done a mesh1 ∧
        a.runUndo mesh1 = .done () mesh) ∧
    (vertex.index < mesh.vertices.length →
      ∃ a mesh1, self.writeInterpolatedNormal interpolatedNormal mesh vertex = .done a mesh1 ∧
        a.runUndo mesh1 = .done () mesh) ∧
    (vertex.index < mesh.vertices.length →
      ∃ a mesh1, self.move mesh vertex pos = .done a mesh1 ∧
        a.runUndo mesh1 = .done () mesh) :=
  ⟨fun hv hown => edge_undo self mesh vertex.index vertex e hv hown,
   fun hv hown => edge_undo self mesh vertex.index vertex none hv hown,
   fun hslot => writeIndex_undo self mesh vertex slot hslot,
   fun hvi => writeNormal_undo self mesh vertex normal hvi,
   fun hvi => writeNormal_undo self mesh vertex _ hvi,
   fun hvi => move_undo self mesh vertex pos hvi⟩

/-- On `sampleMesh`: vertex 0 is given the edge with index 0 by `edge`, and slot 1 is
written by `writeIndex`; on `bareMesh`, which has no index slot, vertex 3 is moved
from (0,0,0) to (1,0,0). In each case `runUndo` gives the mesh back. -/
theorem undo_restores_field_witness :
    ((sampleMesh.vertexRef sampleVertex0.index = .ok sampleVertex0 ∧
        sampleMesh.Owns sampleVertex0.edge) ∧
      (sampleAction.edge sampleVertex0 (some ⟨70, 0⟩)).1.runUndo
        (sampleMesh.store (sampleAction.edge sampleVertex0 (some ⟨70, 0⟩)).2) =
          .done () sampleMesh) ∧
    (1 < sampleMesh.indices.length ∧
      ∃ a mesh1, sampleAction.writeIndex sampleMesh sampleVertex0 1 = .done a mesh1 ∧
        a.runUndo mesh1 = .done () sampleMesh) ∧
    (bareVertex3.index < bareMesh.vertices.length ∧
      ∃ a mesh1, sampleAction.move bareMesh bareVertex3 ⟨1, 0, 0⟩ = .done a mesh1 ∧
        a.runUndo mesh1 = .done () bareMesh) :=
  ⟨⟨by decide,
    (undo_restores_field sampleAction sampleMesh sampleVertex0 (some ⟨70, 0⟩) 1 ⟨5, 5, 5⟩
      ⟨9, 9, 9⟩ (fun _ _ => ⟨0, 0, 0⟩)).1 (by decide) (by decide)⟩,
   ⟨by decide,
    (undo_restores_field sampleAction sampleMesh sampleVertex0 (some ⟨70, 0⟩) 1 ⟨5, 5, 5⟩
      ⟨9, 9, 9⟩ (fun _ _ => ⟨0, 0, 0⟩)).2.2.1 (by decide)⟩,
   ⟨by decide,
    (undo_restores_field sampleAction bareMesh bareVertex3 none 0 ⟨5, 5, 5⟩
      ⟨1, 0, 0⟩ (fun _ _ => ⟨0, 0, 0⟩)).2.2.2.2.2 (by decide)⟩⟩

/-- C2: for a vertex partial action created on a mesh by `edge`, `reset`,
`writeIndex`, `writeNormal`, `move` or `moved`, `runUndo` on the mesh right after the
creation succeeds, and `runRedo` on what it leaves succeeds and gives exactly the
mesh as it was right after the creation, so the affected field has its new value
again. Each constructor is taken under what its own call needs: for `edge` the
vertex is the vertex the mesh holds at its index and the given handle is none or an
edge of the mesh; for `reset` the vertex is the vertex the mesh holds at its index;
for `writeIndex` the slot is an index slot of the mesh; for `writeNormal`, `move`
and `moved` the vertex's index is a vertex of the mesh. -/
theorem undo_then_redo_identity (self : Impl) (mesh : WingedMesh)
    (vertex : WingedVertex) (e : Option WingedEdge) (slot : Nat) (normal pos src : Vec3) :
    (mesh.vertexRef vertex.index = .ok vertex → mesh.Owns e →
      ∃ mesh2,
        (self.edge vertex e).1.runUndo (mesh.store (self.edge vertex e).2) = .done () mesh2 ∧
        (self.edge vertex e).1.runRedo mesh2 = .done () (mesh.store (self.edge vertex e).2)) ∧
    (mesh.vertexRef vertex.index = .ok vertex →
      ∃ mesh2,
        (self.reset vertex).1.runUndo (mesh.store (self.reset vertex).2) = .done () mesh2 ∧
        (self.reset vertex).1.runRedo mesh2 = .done () (mesh.store (self.reset vertex).2)) ∧
    (slot < mesh.indices.length →
      ∃ a mesh1, self.writeIndex mesh vertex slot = .done a mesh1 ∧
        ∃ mesh2, a.runUndo mesh1 = .done () mesh2 ∧ a.runRedo mesh2 = .done () mesh1) ∧
    (vertex.index < mesh.vertices.length →
      ∃ a mesh1, self.writeNormal mesh vertex normal = .done a mesh1 ∧
        ∃ mesh2, a.runUndo mesh1 = .done () mesh2 ∧ a.runRedo mesh2 = .done () mesh1) ∧
    (vertex.index < mesh.vertices.length →
      ∃ a mesh1, self.move mesh vertex pos = .done a mesh1 ∧
        ∃ mesh2, a.runUndo mesh1 = .done () mesh2 ∧ a.runRedo mesh2 = .done () mesh1) ∧
    (vertex.index < mesh.vertices.length →
      ∃ a, self.moved mesh vertex src = .done a mesh ∧
        ∃ mesh2, a.runUndo mesh = .done () mesh2 ∧ a.runRedo mesh2 = .done () mesh) :=
  ⟨fun hv hown => edge_undo_redo self mesh vertex.index vertex e hv hown,
   fun hv => edge_undo_redo self mesh vertex.index vertex none hv rfl,
   fun hslot => writeIndex_undo_redo self mesh vertex slot hslot,
   fun hvi => writeNormal_undo_redo self mesh vertex normal hvi,
   fun hvi => move_undo_redo self mesh vertex pos hvi,
   fun hvi => moved_undo_redo self mesh vertex src hvi⟩

/-- On `sampleMesh`: vertex 0 is given the edge with index 0, and slot 0 is written;
on `bareMesh`, which has no index slot, vertex 3 is moved to (1,0,0). In each case
undo and then redo give the mesh as it was right after the creation. -/
theorem undo_then_redo_identity_witness :
    ((sampleMesh.vertexRef sampleVertex0.index = .ok sampleVertex0 ∧
        sampleMesh.Owns (some ⟨70, 0⟩)) ∧
      ∃ mesh2,
        (sampleAction.edge sampleVertex0 (some ⟨70, 0⟩)).1.runUndo
          (sampleMesh.store (sampleAction.edge sampleVertex0 (some ⟨70, 0⟩)).2) =
            .done () mesh2 ∧
        (sampleAction.edge sampleVertex0 (some ⟨70, 0⟩)).1.runRedo mesh2 =
          .done () (sampleMesh.store (sampleAction.edge sampleVertex0 (some ⟨70, 0⟩)).2)) ∧
    (0 < sampleMesh.indices.length ∧
      ∃ a mesh1, sampleAction.writeIndex sampleMesh sampleVertex0 0 = .done a mesh1 ∧
        ∃ mesh2, a.runUndo mesh1 = .done () mesh2 ∧ a.runRedo mesh2 = .done () mesh1) ∧
    (bareVertex3.index < bareMesh.vertices.length ∧
      ∃ a mesh1, sampleAction.move bareMesh bareVertex3 ⟨1, 0, 0⟩ = .done a mesh1 ∧
        ∃ mesh2, a.runUndo mesh1 = .done () mesh2 ∧ a.runRedo mesh2 = .done () mesh1) :=
  ⟨⟨by decide,
    (undo_then_redo_identity sampleAction sampleMesh sampleVertex0 (some ⟨70, 0⟩) 0 ⟨5, 5, 5⟩
      ⟨1, 0, 0⟩ ⟨7, 7, 7⟩).1 (by decide) (by decide)⟩,
   ⟨by decide,
    (undo_then_redo_identity sampleAction sampleMesh sampleVertex0 (some ⟨70, 0⟩) 0 ⟨5, 5, 5⟩
      ⟨1, 0, 0⟩ ⟨7, 7, 7⟩).2.2.1 (by decide)⟩,
   ⟨by decide,
    (undo_then_redo_identity sampleAction bareMesh bareVertex3 none 0 ⟨5, 5, 5⟩
      ⟨1, 0, 0⟩ ⟨7, 7, 7⟩).2.2.2.2.1 (by decide)⟩⟩

/-- C3: for every mesh and vertex, `edge` records the vertex's index, old = the
vertex's edge handle immediately before the call and new = its edge handle
immediately after, both as their indices (`ActionUtil::maybeIndex`). For
`writeIndex` on a mesh that has `slot` among its index slots, and for `writeNormal`
and `move` on a mesh that has the vertex's index among its vertices (what each call
needs to return): the call succeeds, the recorded old value is the value of the
affected field immediately before the call and the recorded new value its value
immediately after, and the recorded index is the given slot for `writeIndex` and
the vertex's index for `writeNormal` and `move`. -/
theorem constructors_record_old_new (self : Impl) (mesh : WingedMesh) (vertex : WingedVertex)
    (e : Option WingedEdge) (slot : Nat) (normal pos : Vec3) :
    ((self.edge vertex e).1.operation = .Edge ∧
      (self.edge vertex e).1.data.index = vertex.index ∧
      (self.edge vertex e).1.data.values =
        .maybeIndex (ActionUtil.maybeIndex vertex.edge)
          (ActionUtil.maybeIndex (self.edge vertex e).2.edge) ∧
      (self.edge vertex e).2 = { index := vertex.index, edge := e }) ∧
    (slot < mesh.indices.length →
      ∃ a mesh1 old new, self.writeIndex mesh vertex slot = .done a mesh1 ∧
        a.operation = .WriteIndex ∧ a.data.index = slot ∧ a.data.values = .index old new ∧
        mesh.index slot = .ok old ∧ mesh1.index slot = .ok new) ∧
    (vertex.index < mesh.vertices.length →
      ∃ a mesh1 old new, self.writeNormal mesh vertex normal = .done a mesh1 ∧
        a.operation = .WriteNormal ∧ a.data.index = vertex.index ∧
        a.data.values = .vec3 old new ∧
        vertex.savedNormal mesh = .ok old ∧ vertex.savedNormal mesh1 = .ok new ∧
        new = normal) ∧
    (vertex.index < mesh.vertices.length →
      ∃ a mesh1 old new, self.move mesh vertex pos = .done a mesh1 ∧
        a.operation = .Move ∧ a.data.index = vertex.index ∧
        a.data.values = .vec3 old new ∧
        vertex.position mesh = .ok old ∧ vertex.position mesh1 = .ok new ∧ new = pos) := by
  refine ⟨?_, ?_, ?_, ?_⟩
  · simp [edge_eq]
  · intro hslot
    have hold : mesh.indices[slot]? = some mesh.indices[slot] := List.getElem?_eq_getElem hslot
    refine ⟨_, _, _, _, writeIndex_eq self mesh vertex slot _ hold, rfl, rfl, rfl, ?_, ?_⟩
    · simp [WingedMesh.index, hold]
    · simp [WingedMesh.index, getElem?_set_same _ _ _ _ hold]
  · intro hvi
    have hf : mesh.vertices[vertex.index]? = some mesh.vertices[vertex.index] :=
      List.getElem?_eq_getElem hvi
    refine ⟨_, _, _, _, writeNormal_eq self mesh vertex normal _ hf, rfl, rfl, rfl, ?_, ?_, rfl⟩
    · simp [WingedVertex.savedNormal, hf]
    · simp [WingedVertex.savedNormal, getElem?_set_same _ _ _ _ hf]
  · intro hvi
    have hf : mesh.vertices[vertex.index]? = some mesh.vertices[vertex.index] :=
      List.getElem?_eq_getElem hvi
    refine ⟨_, _, _, _, move_eq self mesh vertex pos _ hf, rfl, rfl, rfl, ?_, ?_, rfl⟩
    · simp [WingedVertex.position, hf]
    · simp [WingedVertex.position, getElem?_set_same _ _ _ _ hf]

/-- On `sampleMesh`: `writeIndex` at slot 0 records the slot's content before and
after; on `bareMesh`, which has no index slot, moving vertex 3 from (0,0,0) to
(1,0,0) records old (0,0,0), new (1,0,0) and index 3. -/
theorem constructors_record_old_new_witness :
    (0 < sampleMesh.indices.length ∧
      ∃ a mesh1 old new, sampleAction.writeIndex sampleMesh sampleVertex2 0 = .done a mesh1 ∧
        a.operation = .WriteIndex ∧ a.data.index = 0 ∧ a.data.values = .index old new ∧
        sampleMesh.index 0 = .ok old ∧ mesh1.index 0 = .ok new) ∧
    (bareVertex3.index < bareMesh.vertices.length ∧
      ∃ a mesh1 old new, sampleAction.move bareMesh bareVertex3 ⟨1, 0, 0⟩ = .done a mesh1 ∧
        a.operation = .Move ∧ a.data.index = bareVertex3.index ∧
        a.data.values = .vec3 old new ∧
        bareVertex3.position bareMesh = .ok old ∧ bareVertex3.position mesh1 = .ok new ∧
        new = ⟨1, 0, 0⟩) :=
  ⟨⟨by decide,
    (constructors_record_old_new sampleAction sampleMesh sampleVertex2 none 0 ⟨5, 5, 5⟩
      ⟨1, 0, 0⟩).2.1 (by decide)⟩,
   ⟨by decide,
    (constructors_record_old_new sampleAction bareMesh bareVertex3 none 0 ⟨5, 5, 5⟩
      ⟨1, 0, 0⟩).2.2.2 (by decide)⟩⟩

/-- C4: on a mesh whose vertex `i` is `vertex`, with edge handle `E`, an edge of the
mesh: `reset` sets the handle of the vertex to none and records the vertex's index,
old = the index of `E` and new = none; `runUndo` on the resulting mesh succeeds and
the vertex at the recorded index has the handle `E` again, the edge of the mesh
resolved from the recorded index; `runRedo` after that sets the handle to none
again. -/
theorem reset_undo_restores_edge (self : Impl) (mesh : WingedMesh) (i : Nat)
    (vertex : WingedVertex) (E : WingedEdge)
    (hv : mesh.vertexRef i = .ok vertex) (hE : vertex.edge = some E)
    (hmesh : mesh.edge E.index = some E) :
    (self.reset vertex).2.edge = none ∧
    (mesh.store (self.reset vertex).2).vertexRef i = .ok { index := i, edge := none } ∧
    (self.reset vertex).1.operation = .Edge ∧
    (self.reset vertex).1.data.index = i ∧
    (self.reset vertex).1.data.values = .maybeIndex (some E.index) none ∧
    ∃ mesh2, (self.reset vertex).1.runUndo (mesh.store (self.reset vertex).2) = .done () mesh2 ∧
      mesh2.vertexRef (self.reset vertex).1.data.index = .ok { index := i, edge := some E } ∧
      mesh2.vertexRef (self.reset vertex).1.data.index =
        .ok { index := i, edge := mesh.edge E.index } ∧
      mesh2 = mesh ∧
      ∃ mesh3, (self.reset vertex).1.runRedo mesh2 = .done () mesh3 ∧
        mesh3.vertexRef (self.reset vertex).1.data.index = .ok { index := i, edge := none } := by
  obtain ⟨fields, hf, rfl⟩ := vertexRef_eq_ok hv
  simp only at hE
  have hown : mesh.Owns fields.edge := by
    simp [WingedMesh.Owns, hE, ActionUtil.maybeIndex, ActionUtil.wingedEdge, hmesh]
  have hundo := edge_undo self mesh i { index := i, edge := fields.edge } none hv hown
  have hr : self.reset { index := i, edge := fields.edge } =
      ({ operation := .Edge, data := { index := i, values := .maybeIndex (some E.index) none } },
       { index := i, edge := none }) := by
    simp [Impl.reset, edge_eq, hE, ActionUtil.maybeIndex]
  have hf1 : (mesh.vertices.set i { fields with edge := none })[i]? =
      some { fields with edge := none } := getElem?_set_same _ _ _ _ hf
  have hst : mesh.store { index := i, edge := none } =
      { mesh with vertices := mesh.vertices.set i { fields with edge := none } } := by
    simp [WingedMesh.store, hf]
  rw [← Impl.reset, hr] at hundo
  rw [hr]
  refine ⟨rfl, ?_, rfl, rfl, rfl, mesh, hundo, ?_, ?_, rfl, ?_⟩
  · simp [hst, WingedMesh.vertexRef, hf1]
  · simp [hv, hE]
  · simp [hv, hE, hmesh]
  · refine ⟨_, toggle_edge_eq _ _ _ _ .New _ hf, ?_⟩
    simp [WingedMesh.vertexRef, getElem?_set_same _ _ _ _ hf, pick, ActionUtil.wingedEdge]

/-- On `sampleMesh`: vertex 0 refers to the edge with index 1; `reset` records index 1
as the old value. -/
theorem reset_undo_restores_edge_witness :
    (sampleMesh.vertexRef 0 = .ok sampleVertex0 ∧ sampleVertex0.edge = some ⟨71, 1⟩ ∧
      sampleMesh.edge 1 = some ⟨71, 1⟩) ∧
    (sampleAction.reset sampleVertex0).1.data.values = .maybeIndex (some 1) none :=
  ⟨by decide,
   (reset_undo_restores_edge sampleAction sampleMesh 0 sampleVertex0 ⟨71, 1⟩
      (by decide) (by decide) (by decide)).2.2.2.2.1⟩

/-- C5, as stated, fails: on `sampleMesh`, slot 0 holds 1 and the vertex has index 2;
after `writeIndex (mesh, vertex, 0)` slot 0 holds 2, but the vertex is looked up
unchanged at index 2 and its index value is 2, not the former content 1 of the
slot: nothing was swapped into the vertex. -/
theorem writeIndex_is_not_a_swap :
    sampleMesh.index 0 = .ok 1 ∧ sampleVertex2.index = 2 ∧
    sampleMesh.vertexRef 2 = .ok sampleVertex2 ∧
    ∃ a mesh1, sampleAction.writeIndex sampleMesh sampleVertex2 0 = .done a mesh1 ∧
      mesh1.index 0 = .ok 2 ∧ mesh1.vertexRef 2 = .ok sampleVertex2 ∧
      mesh1.vertices = sampleMesh.vertices ∧
      ¬ (sampleVertex2.index = 1) :=
  ⟨by decide, by decide, by decide, _, _,
    writeIndex_eq sampleAction sampleMesh sampleVertex2 0 1 (by decide), by decide, by decide,
    by decide, by decide⟩

/-- C5, amended: for a mesh with `slot` among its index slots, `writeIndex (mesh,
vertex, slot)` overwrites the slot with the vertex's index value and leaves the
vertex (its own index value included) and every other part of the mesh unchanged;
it records the slot as index, old = the former content of the slot and new = the
vertex's index value, and `runUndo` restores exactly the mesh before the call. -/
theorem writeIndex_overwrites_slot (self : Impl) (mesh : WingedMesh) (vertex : WingedVertex)
    (slot : Nat) (hslot : slot < mesh.indices.length) :
    ∃ a mesh1 old, self.writeIndex mesh vertex slot = .done a mesh1 ∧
      mesh.index slot = .ok old ∧
      mesh1.index slot = .ok vertex.index ∧
      (∀ other, other ≠ slot → mesh1.index other = mesh.index other) ∧
      mesh1.vertices = mesh.vertices ∧ mesh1.edges = mesh.edges ∧
      a.operation = .WriteIndex ∧ a.data.index = slot ∧
      a.data.values = .index old vertex.index ∧
      a.runUndo mesh1 = .done () mesh := by
  have hold : mesh.indices[slot]? = some mesh.indices[slot] := List.getElem?_eq_getElem hslot
  refine ⟨_, _, _, writeIndex_eq self mesh vertex slot _ hold, ?_, ?_, ?_, rfl, rfl, rfl, rfl,
    rfl, ?_⟩
  · simp [WingedMesh.index, hold]
  · simp [WingedMesh.index, getElem?_set_same _ _ _ _ hold]
  · intro other hne
    simp [WingedMesh.index, List.getElem?_set_ne (Ne.symm hne)]
  · rw [Impl.runUndo, toggle_writeIndex_eq _ _ _ _ _ (by simpa using hslot)]
    simp [pick, set_same_of_getElem? _ _ _ hold]

/-- On `sampleMesh`: slot 0 is overwritten with the index 2 of the vertex. -/
theorem writeIndex_overwrites_slot_witness :
    0 < sampleMesh.indices.length ∧
    ∃ a mesh1 old, sampleAction.writeIndex sampleMesh sampleVertex2 0 = .done a mesh1 ∧
      sampleMesh.index 0 = .ok old ∧
      mesh1.index 0 = .ok sampleVertex2.index ∧
      (∀ other, other ≠ 0 → mesh1.index other = sampleMesh.index other) ∧
      mesh1.vertices = sampleMesh.vertices ∧ mesh1.edges = sampleMesh.edges ∧
      a.operation = .WriteIndex ∧ a.data.index = 0 ∧
      a.data.values = .index old sampleVertex2.index ∧
      a.runUndo mesh1 = .done () sampleMesh :=
  ⟨by decide, writeIndex_overwrites_slot sampleAction sampleMesh sampleVertex2 0 (by decide)⟩

/-- C6: on a mesh that has the vertex's index among its vertices, `moved (mesh,
vertex, from)` returns with the mesh unchanged and records a `Move` action at the
vertex's index with old = `from` and new = the vertex's current position; `runUndo`
then sets the position of the vertex to `from`, and `runRedo` (after that undo, or
directly) sets it to the position the vertex had when `moved` was called. -/
theorem moved_records_without_writing (self : Impl) (mesh : WingedMesh)
    (vertex : WingedVertex) (src : Vec3) (hvi : vertex.index < mesh.vertices.length) :
    ∃ a current, self.moved mesh vertex src = .done a mesh ∧
      a.operation = .Move ∧ a.data.index = vertex.index ∧
      vertex.position mesh = .ok current ∧ a.data.values = .vec3 src current ∧
      (∃ mesh2, a.runUndo mesh = .done () mesh2 ∧ vertex.position mesh2 = .ok src ∧
        ∃ mesh3, a.runRedo mesh2 = .done () mesh3 ∧ vertex.position mesh3 = .ok current ∧
          mesh3 = mesh) ∧
      a.runRedo mesh = .done () mesh := by
  have hf : mesh.vertices[vertex.index]? = some mesh.vertices[vertex.index] :=
    List.getElem?_eq_getElem hvi
  have hpos : vertex.position mesh = .ok mesh.vertices[vertex.index].position := by
    simp [WingedVertex.position, hf]
  refine ⟨_, _, moved_eq self mesh vertex src _ hf, rfl, rfl, hpos, rfl, ?_, ?_⟩
  · refine ⟨_, toggle_move_eq _ _ _ _ .Old _ hf, ?_, ?_⟩
    · simp [WingedVertex.position, getElem?_set_same _ _ _ _ hf, pick]
    · refine ⟨mesh, ?_, hpos, rfl⟩
      rw [Impl.runRedo, toggle_move_eq _ _ _ _ _ _ (getElem?_set_same _ _ _ _ hf)]
      simp [pick, set_same_of_getElem? _ _ _ hf]
  · rw [Impl.runRedo, toggle_move_eq _ _ _ _ _ _ hf]
    simp [pick, set_same_of_getElem? _ _ _ hf]

/-- On `sampleMesh`: vertex 2, now at (0,1,0), is recorded as moved from (4,4,4). -/
theorem moved_records_without_writing_witness :
    sampleVertex2.index < sampleMesh.vertices.length ∧
    ∃ a current, sampleAction.moved sampleMesh sampleVertex2 ⟨4, 4, 4⟩ = .done a sampleMesh ∧
      a.operation = .Move ∧ a.data.index = sampleVertex2.index ∧
      sampleVertex2.position sampleMesh = .ok current ∧ a.data.values = .vec3 ⟨4, 4, 4⟩ current ∧
      (∃ mesh2, a.runUndo sampleMesh = .done () mesh2 ∧
        sampleVertex2.position mesh2 = .ok ⟨4, 4, 4⟩ ∧
        ∃ mesh3, a.runRedo mesh2 = .done () mesh3 ∧ sampleVertex2.position mesh3 = .ok current ∧
          mesh3 = sampleMesh) ∧
      a.runRedo sampleMesh = .done () sampleMesh :=
  ⟨by decide,
   moved_records_without_writing sampleAction sampleMesh sampleVertex2 ⟨4, 4, 4⟩ (by decide)⟩

/-- C9: for a vertex partial action whose record is typed according to its tag, and
a mesh whose count of the addressed entities (index slots for `WriteIndex`, vertices
for `Edge`, `WriteNormal` and `Move`) is not greater than the recorded index:
`runUndo` and `runRedo` abort with the fatal index-out-of-range error, and the mesh
they leave is the mesh they were given. -/
theorem replay_out_of_range_is_fatal (a : Impl) (mesh : WingedMesh) (hty : a.WellTyped)
    (hrange : a.entityCount mesh ≤ a.data.index) :
    a.runUndo mesh = .fatal .indexOutOfRange mesh ∧
    a.runRedo mesh = .fatal .indexOutOfRange mesh := by
  obtain ⟨op, idx, values⟩ := a
  cases op <;> cases values <;> simp [Impl.WellTyped] at hty <;>
    simp only [Impl.entityCount] at hrange
  · have hnone : mesh.vertices[idx]? = none := List.getElem?_eq_none hrange
    simp [Impl.runUndo, Impl.runRedo, Impl.toggle, Data.valueMaybeIndex, WingedMesh.vertexRef,
      hnone]
  · have hnot : ¬ idx < mesh.indices.length := Nat.not_lt.mpr hrange
    simp [Impl.runUndo, Impl.runRedo, Impl.toggle, Data.valueIndex, WingedMesh.setIndex, hnot]
  · have hnone : mesh.vertices[idx]? = none := List.getElem?_eq_none hrange
    simp [Impl.runUndo, Impl.runRedo, Impl.toggle, WingedMesh.vertexRef, hnone]
  · have hnone : mesh.vertices[idx]? = none := List.getElem?_eq_none hrange
    simp [Impl.runUndo, Impl.runRedo, Impl.toggle, WingedMesh.vertexRef, hnone]

/-- On `sampleMesh`, which has three vertices: a `Move` action recorded at index 3
cannot be replayed. -/
theorem replay_out_of_range_is_fatal_witness :
    (Impl.WellTyped { operation := .Move, data := { index := 3, values := .vec3 ⟨0, 0, 0⟩ ⟨1, 0, 0⟩ } } ∧
      Impl.entityCount { operation := .Move, data := { index := 3, values := .vec3 ⟨0, 0, 0⟩ ⟨1, 0, 0⟩ } }
        sampleMesh ≤ 3) ∧
    Impl.runUndo { operation := .Move, data := { index := 3, values := .vec3 ⟨0, 0, 0⟩ ⟨1, 0, 0⟩ } }
      sampleMesh = .fatal .indexOutOfRange sampleMesh :=
  ⟨by decide,
   (replay_out_of_range_is_fatal
      { operation := .Move, data := { index := 3, values := .vec3 ⟨0, 0, 0⟩ ⟨1, 0, 0⟩ } }
      sampleMesh (by decide) (by decide)).1⟩

/-- C10: for a vertex partial action whose record is typed according to its tag, and
a mesh on which the recorded index is valid: `runUndo` (selector `Old`) and `runRedo`
(selector `New`) succeed and write exactly one field of exactly one entity, the one
the tag selects at the recorded index, with the recorded old (respectively new)
value: for `Edge` the edge handle of that vertex, set to the handle the mesh resolves
from the recorded optional index; for `WriteIndex` that index slot; for `WriteNormal`
the normal and for `Move` the position of that vertex. The other fields of that
entity, every other entity and the rest of the mesh are unchanged. The action is
read only: it is an argument of the replay and not among its results. -/
theorem replay_writes_one_field (a : Impl) (mesh : WingedMesh) (type : ActionDataType)
    (hty : a.WellTyped) (hidx : a.data.index < a.entityCount mesh) :
    ∃ mesh1 : WingedMesh,
      pick type (a.runUndo mesh) (a.runRedo mesh) = .done () mesh1 ∧
      mesh1.edges = mesh.edges ∧
      (∀ j, j ≠ a.data.index ∨ a.operation = .WriteIndex →
        mesh1.vertices[j]? = mesh.vertices[j]?) ∧
      (∀ j, j ≠ a.data.index ∨ a.operation ≠ .WriteIndex →
        mesh1.indices[j]? = mesh.indices[j]?) ∧
      (a.operation = .Edge → ∃ fields old new,
        mesh.vertices[a.data.index]? = some fields ∧ a.data.values = .maybeIndex old new ∧
        mesh1.vertices[a.data.index]? =
          some { fields with edge := ActionUtil.wingedEdge mesh (pick type old new) }) ∧
      (a.operation = .WriteIndex → ∃ old new,
        a.data.values = .index old new ∧
        mesh1.indices[a.data.index]? = some (pick type old new)) ∧
      (a.operation = .WriteNormal → ∃ fields old new,
        mesh.vertices[a.data.index]? = some fields ∧ a.data.values = .vec3 old new ∧
        mesh1.vertices[a.data.index]? = some { fields with normal := pick type old new }) ∧
      (a.operation = .Move → ∃ fields old new,
        mesh.vertices[a.data.index]? = some fields ∧ a.data.values = .vec3 old new ∧
        mesh1.vertices[a.data.index]? = some { fields with position := pick type old new }) := by
  have hrun : pick type (a.runUndo mesh) (a.runRedo mesh) = a.toggle mesh type := by
    cases type <;> rfl
  rw [hrun]
  obtain ⟨op, idx, values⟩ := a
  cases op <;> cases values <;> simp [Impl.WellTyped] at hty <;>
    simp only [Impl.entityCount] at hidx
  · rename_i old new
    have hf : mesh.vertices[idx]? = some mesh.vertices[idx] := List.getElem?_eq_getElem hidx
    refine ⟨_, toggle_edge_eq mesh idx old new type _ hf, rfl, ?_, ?_, ?_, ?_, ?_, ?_⟩
    · intro j hj
      have hne : idx ≠ j := by
        rcases hj with h | h
        · exact fun hc => h hc.symm
        · cases h
      simp [List.getElem?_set_ne hne]
    · intro j _
      rfl
    · intro _
      exact ⟨_, old, new, hf, rfl, getElem?_set_same _ _ _ _ hf⟩
    · intro h
      cases h
    · intro h
      cases h
    · intro h
      cases h
  · rename_i old new
    have hold : mesh.indices[idx]? = some mesh.indices[idx] := List.getElem?_eq_getElem hidx
    refine ⟨_, toggle_writeIndex_eq mesh idx old new type hidx, rfl, ?_, ?_, ?_, ?_, ?_, ?_⟩
    · intro j _
      rfl
    · intro j hj
      have hne : idx ≠ j := by
        rcases hj with h | h
        · exact fun hc => h hc.symm
        · exact absurd rfl h
      simp [List.getElem?_set_ne hne]
    · intro h
      cases h
    · intro _
      exact ⟨old, new, rfl, getElem?_set_same _ _ _ _ hold⟩
    · intro h
      cases h
    · intro h
      cases h
  · rename_i old new
    have hf : mesh.vertices[idx]? = some mesh.vertices[idx] := List.getElem?_eq_getElem hidx
    refine ⟨_, toggle_writeNormal_eq mesh idx old new type _ hf, rfl, ?_, ?_, ?_, ?_, ?_, ?_⟩
    · intro j hj
      have hne : idx ≠ j := by
        rcases hj with h | h
        · exact fun hc => h hc.symm
        · cases h
      simp [List.getElem?_set_ne hne]
    · intro j _
      rfl
    · intro h
      cases h
    · intro h
      cases h
    · intro _
      exact ⟨_, old, new, hf, rfl, getElem?_set_same _ _ _ _ hf⟩
    · intro h
      cases h
  · rename_i old new
    have hf : mesh.vertices[idx]? = some mesh.vertices[idx] := List.getElem?_eq_getElem hidx
    refine ⟨_, toggle_move_eq mesh idx old new type _ hf, rfl, ?_, ?_, ?_, ?_, ?_, ?_⟩
    · intro j hj
      have hne : idx ≠ j := by
        rcases hj with h | h
        · exact fun hc => h hc.symm
        · cases h
      simp [List.getElem?_set_ne hne]
    · intro j _
      rfl
    · intro h
      cases h
    · intro h
      cases h
    · intro h
      cases h
    · intro _
      exact ⟨_, old, new, hf, rfl, getElem?_set_same _ _ _ _ hf⟩

/-- On `sampleMesh`: undoing a move of vertex 2 recorded as (0,1,0) → (1,0,0). -/
theorem replay_writes_one_field_witness :
    (Impl.WellTyped { operation := .Move, data := { index := 2, values := .vec3 ⟨0, 1, 0⟩ ⟨1, 0, 0⟩ } } ∧
      2 < Impl.entityCount
        { operation := .Move, data := { index := 2, values := .vec3 ⟨0, 1, 0⟩ ⟨1, 0, 0⟩ } }
        sampleMesh) ∧
    ∃ mesh1 : WingedMesh,
      Impl.runUndo { operation := .Move, data := { index := 2, values := .vec3 ⟨0, 1, 0⟩ ⟨1, 0, 0⟩ } }
        sampleMesh = .done () mesh1 ∧ mesh1.edges = sampleMesh.edges :=
  ⟨by decide,
   let h := replay_writes_one_field
     { operation := .Move, data := { index := 2, values := .vec3 ⟨0, 1, 0⟩ ⟨1, 0, 0⟩ } }
     sampleMesh .Old (by decide) (by decide)
   ⟨h.choose, h.choose_spec.1, h.choose_spec.2.1⟩⟩

/-! ## The sculpt tool -/

theorem strokes_accumulate (tool : ToolSculpt.Impl) (brushes : List SculptBrush) :
    (tool.strokes brushes).actions.actions = tool.actions.actions ++ brushes.map ActionSculpt.mk ∧
    (tool.strokes brushes).history = tool.history := by
  induction brushes generalizing tool with
  | nil => simp [ToolSculpt.Impl.strokes]
  | cons brush rest ih =>
    have h := ih (ToolSculpt.Impl.sculpt { tool with brush := brush })
    simp only [ToolSculpt.Impl.strokes, List.foldl_cons] at h ⊢
    refine ⟨h.1.trans ?_, h.2.trans ?_⟩
    · simp [ToolSculpt.Impl.sculpt, ActionUnit.add]
    · simp [ToolSculpt.Impl.sculpt]

/-- C7: for a sculpt tool whose current action unit is empty, `addActionsToHistory`
changes nothing: reached from tool close or from a button release, it leaves the
history (the undo-stack and its size included) and the current unit as they are.
And in every state, `addActionsToHistory` either leaves the history as it is or
adds the current unit, which is then not empty. -/
theorem empty_unit_is_not_committed (tool : ToolSculpt.Impl) (e : QMouseEvent)
    (hempty : tool.actions.isEmpty = true) :
    tool.addActionsToHistory = tool ∧
    tool.runClose = tool ∧
    tool.runClose.history.undoStack.length = tool.history.undoStack.length ∧
    (tool.runMouseReleaseEvent e).2.history = tool.history ∧
    (tool.runMouseReleaseEvent e).2.actions = tool.actions ∧
    (∀ other : ToolSculpt.Impl,
      other.addActionsToHistory.history = other.history ∨
      (other.actions.isEmpty = false ∧
        other.addActionsToHistory.history = other.history.addUnit other.actions)) := by
  have h1 : tool.addActionsToHistory = tool := by
    simp [ToolSculpt.Impl.addActionsToHistory, hempty]
  refine ⟨h1, h1, ?_, ?_, ?_, ?_⟩
  · rw [ToolSculpt.Impl.runClose, h1]
  · by_cases hb : e.button = MouseButton.LeftButton <;>
      simp [ToolSculpt.Impl.runMouseReleaseEvent, ToolSculpt.Impl.addActionsToHistory, hempty, hb]
  · by_cases hb : e.button = MouseButton.LeftButton <;>
      simp [ToolSculpt.Impl.runMouseReleaseEvent, ToolSculpt.Impl.addActionsToHistory, hempty, hb]
  · intro other
    cases hother : other.actions.isEmpty
    · right
      simp [ToolSculpt.Impl.addActionsToHistory, hother]
    · left
      simp [ToolSculpt.Impl.addActionsToHistory, hother]

/-- On `idleTool`: a left-button release commits nothing. -/
theorem empty_unit_is_not_committed_witness :
    idleTool.actions.isEmpty = true ∧
    (idleTool.runMouseReleaseEvent { button := .LeftButton }).2.history = idleTool.history :=
  ⟨by decide,
   (empty_unit_is_not_committed idleTool { button := .LeftButton } (by decide)).2.2.2.1⟩

/-- C8, as stated, fails: `sampleTool` has a non-empty current unit, and the release
of the right button passes nothing to the history and leaves the unit as it is. -/
theorem release_of_right_button_commits_nothing :
    sampleTool.actions.isEmpty = false ∧
    (sampleTool.runMouseReleaseEvent { button := .RightButton }).2.history = sampleTool.history ∧
    (sampleTool.runMouseReleaseEvent { button := .RightButton }).2.history ≠
      sampleTool.history.addUnit sampleTool.actions ∧
    (sampleTool.runMouseReleaseEvent { button := .RightButton }).2.actions.isEmpty = false := by
  decide

/-- C8, amended: for a sculpt tool whose current action unit is not empty, on the
release of the left button (`runMouseReleaseEvent`) or on tool close (`runClose`)
the current unit is passed once to `History::addUnit` (it is the new top of the
undo-stack, above the former stack) and the tool's current unit is afterwards a
fresh unit with `isEmpty ()` true. The unit holds exactly the sculpt actions added
since it was fresh, in the order they were added: a stroke appends its actions at
the end and leaves the history alone. -/
theorem nonempty_unit_is_committed (tool : ToolSculpt.Impl) (e : QMouseEvent)
    (hne : tool.actions.isEmpty = false) (hleft : e.button = MouseButton.LeftButton) :
    (tool.runClose.history = tool.history.addUnit tool.actions ∧
      tool.runClose.history.undoStack = tool.actions :: tool.history.undoStack ∧
      tool.runClose.actions = ActionUnit.fresh ∧ tool.runClose.actions.isEmpty = true) ∧
    ((tool.runMouseReleaseEvent e).2.history = tool.history.addUnit tool.actions ∧
      (tool.runMouseReleaseEvent e).2.history.undoStack = tool.actions :: tool.history.undoStack ∧
      (tool.runMouseReleaseEvent e).2.actions = ActionUnit.fresh ∧
      (tool.runMouseReleaseEvent e).2.actions.isEmpty = true) ∧
    (∀ (start : ToolSculpt.Impl) (brushes : List SculptBrush),
      start.actions = ActionUnit.fresh →
      (start.strokes brushes).actions.actions = brushes.map ActionSculpt.mk ∧
      (start.strokes brushes).history = start.history) := by
  refine ⟨?_, ?_, ?_⟩
  · have hcommit : tool.addActionsToHistory =
        { tool with history := tool.history.addUnit tool.actions, actions := ActionUnit.fresh } := by
      simp only [ToolSculpt.Impl.addActionsToHistory, hne, if_true]
    rw [ToolSculpt.Impl.runClose, hcommit]
    exact ⟨rfl, rfl, rfl, rfl⟩
  · have hcommit : (tool.runMouseReleaseEvent e).2 =
        { brush := tool.brush.resetPosition, cursor := tool.cursor.enable,
          actions := ActionUnit.fresh, history := tool.history.addUnit tool.actions } := by
      simp only [ToolSculpt.Impl.runMouseReleaseEvent, ToolSculpt.Impl.addActionsToHistory, hne,
        hleft, if_true]
    rw [hcommit]
    exact ⟨rfl, rfl, rfl, rfl⟩
  · intro start brushes hfresh
    have h := strokes_accumulate start brushes
    rw [hfresh] at h
    simpa [ActionUnit.fresh] using h

/-- On `sampleTool`: the left-button release commits the unit of one action. -/
theorem nonempty_unit_is_committed_witness :
    (sampleTool.actions.isEmpty = false ∧
      QMouseEvent.button { button := .LeftButton } = MouseButton.LeftButton) ∧
    (sampleTool.runMouseReleaseEvent { button := .LeftButton }).2.history =
      sampleTool.history.addUnit sampleTool.actions :=
  ⟨by decide,
   (nonempty_unit_is_committed sampleTool { button := .LeftButton } (by decide) (by decide)).2.1.1⟩

end Dilay
